import Mathlib

/-!
# Particle field animator of `src/script.js`

A shallow embedding of the particle system of the portfolio script
(`resizeCanvas`, `createParticle`, `initParticles`, `clearParticles`,
`animateParticles`, `toggleTheme`) together with the part of the browser it
talks to: the animation-frame scheduler and the 2D drawing context.

Conventions of the embedding.

* JavaScript numbers are exact rationals; `+ - * /` and the comparisons are
  the exact ones.  NaN and infinities are not modelled.  Rounding is modelled
  where a statement depends on it: the opacity of line 120 is also given in
  binary64 arithmetic (`round64`, `lineAlpha64`).
* `Math.random` and `Math.sqrt` are library functions of the host.  They are
  fields of `Env`: `random k` is the value returned by the `k`-th call of
  `Math.random` and `sqrt` is `Math.sqrt`.
* The module-level variables (`particles`, `animationId`), the canvas
  dimensions, the viewport dimensions, the `data-theme` attribute, the set of
  scheduled `animateParticles` callbacks and the sequence of primitives
  painted on the canvas are the fields of `State`; every function of the
  script is a function `State → State`.
* `requestAnimationFrame` returns the successor of a per-document counter
  (HTML Standard, "animation frame callback identifier"), so handles are
  never `0`.
-/

namespace ParticleField

/-- One particle object, as built by `createParticle` (lines 58-66). -/
structure Particle where
  x : ℚ
  y : ℚ
  vx : ℚ
  vy : ℚ
  size : ℚ
  opacity : ℚ
  color : String
  deriving DecidableEq, Repr

/-- Primitives painted on the 2D context.  `circle` stands for the sequence
`beginPath; arc(x, y, size, 0, 2π); fillStyle = color; globalAlpha = opacity;
fill` (lines 105-109), `line` for `beginPath; moveTo; lineTo; strokeStyle;
globalAlpha; stroke` (lines 116-121), `clearRect w h` for
`ctx.clearRect(0, 0, w, h)` and `setAlpha a` for `ctx.globalAlpha = a`. -/
inductive Cmd where
  | clearRect (w h : ℚ)
  | circle (x y r : ℚ) (fillStyle : String) (alpha : ℚ)
  | line (x1 y1 x2 y2 : ℚ) (strokeStyle : String) (alpha : ℚ)
  | setAlpha (a : ℚ)
  deriving DecidableEq, Repr

/-- The host: whether `document.getElementById("particles")` found a canvas
(line 44), whether `canvas.getContext("2d")` returned a context (line 45),
the stream of `Math.random` results and `Math.sqrt`. -/
structure Env where
  hasCanvas : Bool
  hasContext : Bool
  random : Nat → ℚ
  sqrt : ℚ → ℚ

/-- The mutable state the particle system reads and writes. -/
structure State where
  /-- Value of `html.getAttribute("data-theme")`, `none` for `null`. -/
  theme : Option String
  /-- Value of `window.innerWidth`. -/
  innerWidth : Nat
  /-- Value of `window.innerHeight`. -/
  innerHeight : Nat
  /-- Value of `canvas.width` (meaningful when the canvas exists). -/
  canvasWidth : Nat
  /-- Value of `canvas.height` (meaningful when the canvas exists). -/
  canvasHeight : Nat
  /-- The module variable `particles` (line 46). -/
  particles : List Particle
  /-- The module variable `animationId` (line 47), `none` for `null`. -/
  animationId : Option Nat
  /-- Handles of the `animateParticles` callbacks that are scheduled and have
  neither run nor been cancelled. -/
  pending : List Nat
  /-- The animation frame callback identifier of the document. -/
  rafCounter : Nat
  /-- Number of `Math.random` calls made so far. -/
  randomPos : Nat
  /-- Everything painted on the context so far, oldest first. -/
  drawn : List Cmd

/-- The constant `ctx` of line 45 is non-null: `canvas ? canvas.getContext("2d") : null`. -/
def ctxPresent (env : Env) : Bool := env.hasCanvas && env.hasContext

/-- Test `html.getAttribute("data-theme") === "dark"` (lines 57, 73, 95). -/
def isDark (s : State) : Bool := decide (s.theme = some "dark")

/-- JavaScript truthiness of `animationId`: neither `null` nor `0`. -/
def truthy : Option Nat → Bool
  | none => false
  | some h => decide (h ≠ 0)

/-- Function `resizeCanvas` (lines 49-54). -/
def resizeCanvas (env : Env) (s : State) : State :=
  if env.hasCanvas then
    { s with canvasWidth := s.innerWidth, canvasHeight := s.innerHeight }
  else s

/-- The object literal of `createParticle` (lines 56-67), reading seven
consecutive `Math.random` results starting at position `pos`. -/
def newParticle (env : Env) (s : State) (pos : Nat) : Particle :=
  let dark := isDark s
  { x := env.random pos * (if env.hasCanvas then (s.canvasWidth : ℚ) else (s.innerWidth : ℚ))
    y := env.random (pos + 1) * (if env.hasCanvas then (s.canvasHeight : ℚ) else (s.innerHeight : ℚ))
    vx := (env.random (pos + 2) - 0.5) * 0.5
    vy := (env.random (pos + 3) - 0.5) * 0.5
    size := env.random (pos + 4) * 2 + 1
    opacity := if dark then env.random (pos + 5) * 0.5 + 0.2 else env.random (pos + 5) * 0.3 + 0.1
    color :=
      if dark then (if env.random (pos + 6) > 0.5 then "#08FDD8" else "#B400FF")
      else if env.random (pos + 6) > 0.5 then "#e85d75" else "#f5a623" }

/-- Function `createParticle` (lines 56-67): the new particle and the state
after its seven `Math.random` calls. -/
def createParticle (env : Env) (s : State) : Particle × State :=
  (newParticle env s s.randomPos, { s with randomPos := s.randomPos + 7 })

/-- The loop `for (let i = 0; i < particleCount; i++) particles.push(createParticle())`
(lines 75-77), `n` iterations. -/
def pushParticles (env : Env) : Nat → State → State
  | 0, s => s
  | n + 1, s =>
    let r := createParticle env s
    pushParticles env n { r.2 with particles := r.2.particles ++ [r.1] }

/-- Lines 99-104: advance a particle by its velocity and wrap it. -/
def advance (W H : ℚ) (p : Particle) : Particle :=
  let x1 := p.x + p.vx
  let y1 := p.y + p.vy
  let x2 := if x1 < 0 then W else x1
  let x3 := if x2 > W then 0 else x2
  let y2 := if y1 < 0 then H else y1
  let y3 := if y2 > H then 0 else y2
  { p with x := x3, y := y3 }

/-- The constant `lineOpacityMultiplier` of line 96. -/
def lineOpacityMultiplier (dark : Bool) : ℚ := if dark then 0.2 else 0.1

/-- The value assigned to `ctx.globalAlpha` on line 120, in exact arithmetic
(`lineAlpha64` is the same expression in binary64 arithmetic). -/
def lineAlpha (mult distance : ℚ) : ℚ := ((150 - distance) / 150) * mult

/-- The variable `distance` of lines 112-114. -/
def distance (sqrt : ℚ → ℚ) (particle other : Particle) : ℚ :=
  let dx := particle.x - other.x
  let dy := particle.y - other.y
  sqrt (dx * dx + dy * dy)

/-- Lines 112-122: what the inner callback paints for one other particle,
once `index !== otherIndex` has passed. -/
def connectPair (sqrt : ℚ → ℚ) (mult : ℚ) (particle other : Particle) : List Cmd :=
  if distance sqrt particle other < 150 then
    [Cmd.line particle.x particle.y other.x other.y particle.color
      (lineAlpha mult (distance sqrt particle other))]
  else []

/-- The inner `particles.forEach((otherParticle, otherIndex) => ...)` of lines
110-124, run over the part of the array that starts at `otherIndex`. -/
def connect (sqrt : ℚ → ℚ) (mult : ℚ) (particle : Particle) (index : Nat) :
    Nat → List Particle → List Cmd
  | _, [] => []
  | otherIndex, other :: rest =>
    (if index ≠ otherIndex then connectPair sqrt mult particle other else []) ++
      connect sqrt mult particle index (otherIndex + 1) rest

/-- The outer `particles.forEach((particle, index) => ...)` of lines 98-125.
The array is `done ++ todo`: `done` holds the entries already visited (and
mutated in place), `todo` the ones still to visit, so the current `index` is
`done.length`.  Returns the array after the loop and what was painted. -/
def forEachParticle (sqrt : ℚ → ℚ) (W H mult : ℚ) :
    List Particle → List Particle → List Particle × List Cmd
  | done, [] => (done, [])
  | done, particle :: rest =>
    let moved := advance W H particle
    let out := Cmd.circle moved.x moved.y moved.size moved.color moved.opacity ::
      connect sqrt mult moved done.length 0 (done ++ moved :: rest)
    let r := forEachParticle sqrt W H mult (done ++ [moved]) rest
    (r.1, out ++ r.2)

/-- Everything one run of the body of `animateParticles` paints (lines 94-126). -/
def frameCmds (env : Env) (s : State) : List Cmd :=
  Cmd.clearRect s.canvasWidth s.canvasHeight ::
    (forEachParticle env.sqrt s.canvasWidth s.canvasHeight
      (lineOpacityMultiplier (isDark s)) [] s.particles).2 ++ [Cmd.setAlpha 1]

/-- Function `animateParticles` (lines 92-128). -/
def animateParticles (env : Env) (s : State) : State :=
  if ctxPresent env then
    { s with
      particles := (forEachParticle env.sqrt s.canvasWidth s.canvasHeight
        (lineOpacityMultiplier (isDark s)) [] s.particles).1
      drawn := s.drawn ++ frameCmds env s
      animationId := some (s.rafCounter + 1)
      pending := s.pending ++ [s.rafCounter + 1]
      rafCounter := s.rafCounter + 1 }
  else s

/-- Function `initParticles` (lines 69-79). -/
def initParticles (env : Env) (s : State) : State :=
  if !env.hasCanvas || truthy s.animationId then s
  else
    let s1 := resizeCanvas env s
    let s2 := { s1 with particles := [] }
    let particleCount := if isDark s2 then 80 else 50
    animateParticles env (pushParticles env particleCount s2)

/-- Function `clearParticles` (lines 81-90); `cancelAnimationFrame(h)` drops
the callback with handle `h` from the scheduled ones. -/
def clearParticles (env : Env) (s : State) : State :=
  let s1 :=
    match s.animationId with
    | some h =>
      if h ≠ 0 then { s with pending := s.pending.filter (fun k => k ≠ h), animationId := none }
      else s
    | none => s
  let s2 :=
    if ctxPresent env then
      { s1 with drawn := s1.drawn ++ [Cmd.clearRect s1.canvasWidth s1.canvasHeight] }
    else s1
  { s2 with particles := [] }

/-- Function `toggleTheme` (lines 12-20), restricted to what the particle
system observes: the attribute write, `clearParticles()`, `initParticles()`. -/
def toggleTheme (env : Env) (s : State) : State :=
  let newTheme := if s.theme = some "dark" then "light" else "dark"
  initParticles env (clearParticles env { s with theme := some newTheme })

/-- The scheduler runs the scheduled callback with handle `h`: it leaves the
scheduled set, then `animateParticles` runs. -/
def fireFrame (env : Env) (h : Nat) (s : State) : State :=
  if h ∈ s.pending then animateParticles env { s with pending := s.pending.erase h }
  else s

/-- States of a page: start with no particle, `animationId = null` and
nothing scheduled, then any sequence of `initParticles`, `clearParticles`,
`toggleTheme`, `resizeCanvas`, frames fired by the scheduler, viewport
changes and `requestAnimationFrame` calls of other scripts. -/
inductive Reachable (env : Env) : State → Prop
  | start (s : State) (hp : s.particles = []) (ha : s.animationId = none)
      (hs : s.pending = []) : Reachable env s
  | init (s : State) (h : Reachable env s) : Reachable env (initParticles env s)
  | clear (s : State) (h : Reachable env s) : Reachable env (clearParticles env s)
  | toggle (s : State) (h : Reachable env s) : Reachable env (toggleTheme env s)
  | resize (s : State) (h : Reachable env s) : Reachable env (resizeCanvas env s)
  | fire (s : State) (k : Nat) (h : Reachable env s) : Reachable env (fireFrame env k s)
  | viewport (s : State) (w ht : Nat) (h : Reachable env s) :
      Reachable env { s with innerWidth := w, innerHeight := ht }
  | otherRaf (s : State) (h : Reachable env s) :
      Reachable env { s with rafCounter := s.rafCounter + 1 }


/-! ## Auxiliary definitions used in the statements -/

/-- The particle count chosen on line 74. -/
def particleCount (s : State) : Nat := if isDark s then 80 else 50

/-- The state `initParticles` hands to the loop of lines 75-77. -/
def resized (s : State) : State :=
  { s with canvasWidth := s.innerWidth, canvasHeight := s.innerHeight, particles := [] }

/-- The particles pushed by the loop of lines 75-77. -/
def created (env : Env) (s : State) : List Particle :=
  (List.range (particleCount s)).map
    (fun i => newParticle env (resized s) (s.randomPos + 7 * i))

/-- Every particle lies in the closed rectangle of the canvas. -/
def InBox (s : State) : Prop :=
  ∀ p ∈ s.particles, 0 ≤ p.x ∧ p.x ≤ (s.canvasWidth : ℚ) ∧ 0 ≤ p.y ∧ p.y ≤ (s.canvasHeight : ℚ)

/-- Two particles agree on everything but their position. -/
def SameButPosition (p q : Particle) : Prop :=
  q.vx = p.vx ∧ q.vy = p.vy ∧ q.size = p.size ∧ q.opacity = p.opacity ∧ q.color = p.color

/-- Newton iteration for the integer square root of `n`, at most `fuel` steps
from `guess`. -/
def sqrtIter (n : Nat) : Nat → Nat → Nat
  | 0, guess => guess
  | fuel + 1, guess =>
    if (guess + n / guess) / 2 < guess then sqrtIter n fuel ((guess + n / guess) / 2)
    else guess

/-- Integer square root. -/
def natSqrt (n : Nat) : Nat := if n ≤ 1 then n else sqrtIter n n (n / 2)

/-- The value of `Math.sqrt` used by the concrete pages below: the integer
square roots of numerator and denominator.  It is the exact square root
whenever the argument is the square of a rational (`sqrtOnSquares_sq`), and
the concrete pages only take roots of such squares. -/
def sqrtOnSquares (q : ℚ) : ℚ := mkRat (natSqrt q.num.toNat) (natSqrt q.den)

/-- A page with a canvas and a context whose first `Math.random` call returns
`3/8192` and every later one `0`. -/
def envEdge : Env :=
  { hasCanvas := true, hasContext := true
    random := fun k => if k = 0 then 3 / 8192 else 0
    sqrt := sqrtOnSquares }

/-- A freshly loaded page: light theme, a 1024 by 768 viewport, the canvas at
its default size of 300 by 150, no particle, nothing scheduled. -/
def freshPage : State :=
  { theme := some "light", innerWidth := 1024, innerHeight := 768
    canvasWidth := 300, canvasHeight := 150
    particles := [], animationId := none, pending := []
    rafCounter := 0, randomPos := 0, drawn := [] }

/-- What holds of the scheduler bookkeeping in every reachable state: the
scheduled callbacks are exactly the handle stored in `animationId`, a stored
handle is non-zero and exists only on a page with a drawing context, and a
page without canvas never holds a particle. -/
def Inv (env : Env) (s : State) : Prop :=
  s.pending = s.animationId.toList ∧
    (∀ h, s.animationId = some h → h ≠ 0 ∧ ctxPresent env = true) ∧
    (env.hasCanvas = false → s.particles = [])

/-- A page whose canvas exists but whose `getContext("2d")` returned `null`. -/
def envNoContext : Env :=
  { hasCanvas := true, hasContext := false
    random := fun _ => 1 / 2
    sqrt := sqrtOnSquares }

/-- A page without the canvas element. -/
def envNoCanvas : Env :=
  { hasCanvas := false, hasContext := false
    random := fun _ => 1 / 2
    sqrt := sqrtOnSquares }

/-- Recogniser of the `line` primitive. -/
def isLine : Cmd → Bool
  | Cmd.line _ _ _ _ _ _ => true
  | _ => false

/-- The particle at index `j` as the callback of index `i` finds it in the
array: already advanced in this frame when `j < i`, not yet when `i < j`. -/
def seenBy (W H : ℚ) (i j : Nat) (q : Particle) : Particle :=
  if j < i then advance W H q else q

/-- Multiply the opacity of a `line` by `k`, leave every other primitive alone. -/
def scaleLine (k : ℚ) : Cmd → Cmd
  | Cmd.line x1 y1 x2 y2 c a => Cmd.line x1 y1 x2 y2 c (a * k)
  | c => c

/-- Claim C3 in the words of the specification: one line for each pair of
indices `i < j` of the particles `after` the frame whose distance is below
150, with opacity `(150 - distance) / 150 * mult`. -/
def specLines (sqrt : ℚ → ℚ) (mult : ℚ) (after : List Particle) : List Cmd :=
  after.enum.flatMap (fun ip => after.enum.flatMap (fun jq =>
    if ip.1 < jq.1 ∧ distance sqrt ip.2 jq.2 < 150 then
      [Cmd.line ip.2.x ip.2.y jq.2.x jq.2.y ip.2.color
        ((150 - distance sqrt ip.2 jq.2) / 150 * mult)]
    else []))

/-- A page with canvas and context where particle 1 starts at `x = 661.6875`
with `vx = 3/16` and every other particle is created at rest in the middle of
the canvas (all `Math.random` results are `1/2` but the two that give
particle 1 its `x` and its `vx`). -/
def envCross : Env :=
  { hasCanvas := true, hasContext := true
    random := fun k => if k = 7 then 10587 / 16384 else if k = 9 then 7 / 8 else 1 / 2
    sqrt := sqrtOnSquares }

/-- A page with canvas and context where every `Math.random` result is `1/2`:
all particles are created at rest in the middle of the canvas. -/
def envStill : Env :=
  { hasCanvas := true, hasContext := true
    random := fun _ => 1 / 2
    sqrt := sqrtOnSquares }

/-- A particle at rest in the middle of a 1024 by 768 canvas. -/
def restParticle (c : String) (o : ℚ) : Particle :=
  { x := 512, y := 384, vx := 0, vy := 0, size := 2, opacity := o, color := c }

/-- The particles of the page `envCross` right after `initParticles`:
particle 1 at `x = 661.875` moving right, the 49 others at rest in the middle. -/
def crossParticles : List Particle :=
  restParticle "#f5a623" (1 / 4) ::
    { restParticle "#f5a623" (1 / 4) with x := 5295 / 8, vx := 3 / 16 } ::
    List.replicate 48 (restParticle "#f5a623" (1 / 4))

/-- The particles of the page `envStill` right after `initParticles` under the
light theme: 50 particles at rest in the middle. -/
def stillParticles : List Particle := List.replicate 50 (restParticle "#f5a623" (1 / 4))

/-- A running field on a 1024 by 768 canvas with the given theme attribute and particles. -/
def pageWith (theme : Option String) (ps : List Particle) : State :=
  { theme := theme, innerWidth := 1024, innerHeight := 768
    canvasWidth := 1024, canvasHeight := 768
    particles := ps, animationId := some 1, pending := [1]
    rafCounter := 1, randomPos := 350, drawn := [] }

/-! ### Line 120 in binary64 -/

/-- Round a rational to the nearest integer, a tie to the even one. -/
def roundHalfEven (q : ℚ) : ℤ :=
  if q - ⌊q⌋ < 1 / 2 then ⌊q⌋
  else if 1 / 2 < q - ⌊q⌋ then ⌊q⌋ + 1
  else if ⌊q⌋ % 2 = 0 then ⌊q⌋ else ⌊q⌋ + 1

/-- Round a positive rational `x` to 53 significant bits: with `e` the
exponent of `x` (`2^e ≤ x < 2^(e+1)`), the nearest multiple of `2^(e-52)`, a
tie to the even multiple. -/
def roundPos (x : ℚ) : ℚ :=
  (roundHalfEven (x / 2 ^ (Int.log 2 x - 52)) : ℚ) * 2 ^ (Int.log 2 x - 52)

/-- The binary64 number nearest to `x` (IEEE 754 round to nearest, ties to
even, 53-bit significand).  The exponent is not bounded; the results agree
with binary64 whenever they lie in its normal range, between `2^-1022` and
`2^1024`, which every value computed on line 120 from a binary64 distance
below 150 does. -/
def round64 (x : ℚ) : ℚ :=
  if 0 < x then roundPos x else if x < 0 then -roundPos (-x) else 0

/-- The constant `lineOpacityMultiplier` of line 96 as a binary64 number: the
literals `0.2` and `0.1` denote the binary64 numbers nearest to them. -/
def lineOpacityMultiplier64 (dark : Bool) : ℚ := if dark then round64 0.2 else round64 0.1

/-- The value assigned to `ctx.globalAlpha` on line 120 in binary64
arithmetic: the subtraction, the division and the multiplication are each
rounded. -/
def lineAlpha64 (mult distance : ℚ) : ℚ :=
  round64 (round64 (round64 (150 - distance) / 150) * mult)

/-- Lines 115-122 in binary64 arithmetic, given the value of the variable
`distance`: the test `distance < 150` and the line it strokes. -/
def strokeIfNear64 (mult : ℚ) (particle other : Particle) (distance : ℚ) : List Cmd :=
  if distance < 150 then
    [Cmd.line particle.x particle.y other.x other.y particle.color (lineAlpha64 mult distance)]
  else []

/-- The binary64 number written `0.2`: `7205759403792794 * 2^-55`. -/
def double02 : ℚ := 3602879701896397 / 18014398509481984

/-- The binary64 number written `0.1`: `7205759403792794 * 2^-56`. -/
def double01 : ℚ := 3602879701896397 / 36028797018963968

/-- A particle at rest at `(2^-47, 384)`. -/
def tinyLeft : Particle := { restParticle "#B400FF" (9 / 20) with x := 1 / 2 ^ 47 }

/-- A particle at rest at `(0, 384)`. -/
def tinyRight : Particle := { restParticle "#B400FF" (9 / 20) with x := 0 }

/-! ## The two loops in closed form -/

theorem forEachParticle_fst (sqrt : ℚ → ℚ) (W H m : ℚ) (done todo : List Particle) :
    (forEachParticle sqrt W H m done todo).1 = done ++ todo.map (advance W H) := by
  induction todo generalizing done with
  | nil => simp [forEachParticle]
  | cons p rest ih => simp [forEachParticle, ih]

theorem newParticle_congr (env : Env) (s t : State) (pos : Nat)
    (h1 : t.theme = s.theme) (h2 : t.canvasWidth = s.canvasWidth)
    (h3 : t.canvasHeight = s.canvasHeight) (h4 : t.innerWidth = s.innerWidth)
    (h5 : t.innerHeight = s.innerHeight) :
    newParticle env t pos = newParticle env s pos := by
  simp [newParticle, isDark, h1, h2, h3, h4, h5]

theorem pushParticles_eq (env : Env) (n : Nat) (s : State) :
    pushParticles env n s =
      { s with
        particles := s.particles ++
          (List.range n).map (fun i => newParticle env s (s.randomPos + 7 * i))
        randomPos := s.randomPos + 7 * n } := by
  induction n generalizing s with
  | zero => simp [pushParticles]
  | succ n ih =>
    rw [pushParticles, ih]
    simp only [createParticle, List.range_succ_eq_map, List.map_cons, List.map_map,
      List.append_assoc, List.singleton_append, Nat.mul_zero, Nat.add_zero]
    congr 1
    · congr 2
      apply List.map_congr_left
      intro i _
      simp only [Function.comp]
      refine (newParticle_congr env s _ _ rfl rfl rfl rfl rfl).trans ?_
      have e : s.randomPos + 7 + 7 * i = s.randomPos + 7 * i.succ := by
        simp only [Nat.succ_eq_add_one]; ring
      simp only [e]
    · ring

theorem animateParticles_particles (env : Env) (s : State) :
    (animateParticles env s).particles =
      if ctxPresent env then s.particles.map (advance s.canvasWidth s.canvasHeight)
      else s.particles := by
  unfold animateParticles
  split <;> simp [forEachParticle_fst]

theorem animateParticles_canvas (env : Env) (s : State) :
    (animateParticles env s).canvasWidth = s.canvasWidth ∧
      (animateParticles env s).canvasHeight = s.canvasHeight ∧
      (animateParticles env s).theme = s.theme := by
  unfold animateParticles
  split <;> simp

theorem initParticles_idle (env : Env) (s : State) (hc : env.hasCanvas = true)
    (hidle : truthy s.animationId = false) :
    initParticles env s =
      animateParticles env
        { resized s with particles := created env s
                         randomPos := s.randomPos + 7 * particleCount s } := by
  simp only [initParticles, hc, hidle, resizeCanvas, pushParticles_eq]
  simp [resized, created, particleCount, isDark]

theorem advance_box (W H : ℚ) (p : Particle) (hW : 0 ≤ W) (hH : 0 ≤ H) :
    0 ≤ (advance W H p).x ∧ (advance W H p).x ≤ W ∧
      0 ≤ (advance W H p).y ∧ (advance W H p).y ≤ H := by
  simp only [advance]
  refine ⟨?_, ?_, ?_, ?_⟩
  · split_ifs <;> linarith
  · split_ifs <;> linarith
  · split_ifs <;> linarith
  · split_ifs <;> linarith

theorem animateParticles_inBox (env : Env) (s : State) (h : InBox s) :
    InBox (animateParticles env s) := by
  intro p hp
  rw [animateParticles_particles] at hp
  obtain ⟨hw, hh, _⟩ := animateParticles_canvas env s
  rw [hw, hh]
  split at hp
  · obtain ⟨q, _, rfl⟩ := List.mem_map.1 hp
    exact advance_box _ _ q (Nat.cast_nonneg _) (Nat.cast_nonneg _)
  · exact h p hp

theorem iterate_inBox (env : Env) (n : Nat) (s : State) (h : InBox s) :
    InBox ((animateParticles env)^[n] s) ∧
      ((animateParticles env)^[n] s).canvasWidth = s.canvasWidth ∧
      ((animateParticles env)^[n] s).canvasHeight = s.canvasHeight := by
  induction n with
  | zero => exact ⟨h, rfl, rfl⟩
  | succ n ih =>
    rw [Function.iterate_succ_apply']
    obtain ⟨hw, hh, _⟩ := animateParticles_canvas env ((animateParticles env)^[n] s)
    exact ⟨animateParticles_inBox env _ ih.1, hw.trans ih.2.1, hh.trans ih.2.2⟩

theorem newParticle_inBox (env : Env) (s : State) (pos : Nat) (hc : env.hasCanvas = true)
    (hr : ∀ k, 0 ≤ env.random k ∧ env.random k < 1) :
    0 ≤ (newParticle env s pos).x ∧ (newParticle env s pos).x ≤ (s.canvasWidth : ℚ) ∧
      0 ≤ (newParticle env s pos).y ∧ (newParticle env s pos).y ≤ (s.canvasHeight : ℚ) := by
  have hW : (0 : ℚ) ≤ (s.canvasWidth : ℚ) := Nat.cast_nonneg _
  have hH : (0 : ℚ) ≤ (s.canvasHeight : ℚ) := Nat.cast_nonneg _
  simp only [newParticle, hc, if_true]
  refine ⟨mul_nonneg (hr _).1 hW, ?_, mul_nonneg (hr _).1 hH, ?_⟩
  · exact mul_le_of_le_one_left hW (hr _).2.le
  · exact mul_le_of_le_one_left hH (hr _).2.le

theorem initParticles_inBox (env : Env) (s : State) (hc : env.hasCanvas = true)
    (hidle : s.animationId = none) (hr : ∀ k, 0 ≤ env.random k ∧ env.random k < 1) :
    InBox (initParticles env s) ∧ (initParticles env s).canvasWidth = s.innerWidth ∧
      (initParticles env s).canvasHeight = s.innerHeight := by
  have ht : truthy s.animationId = false := by simp [hidle, truthy]
  rw [initParticles_idle env s hc ht]
  refine ⟨animateParticles_inBox env _ ?_, ?_, ?_⟩
  · intro p hp
    simp only [created, List.mem_map] at hp
    obtain ⟨i, _, rfl⟩ := hp
    exact newParticle_inBox env (resized s) _ hc hr
  · exact (animateParticles_canvas env _).1
  · exact (animateParticles_canvas env _).2.1

/-! ## Claims about one frame and about initialisation -/

theorem advance_same (W H : ℚ) (p : Particle) : SameButPosition p (advance W H p) := by
  simp [SameButPosition, advance]

/-- C10: `animateParticles` keeps the number and the order of the particles
and changes nothing of a particle but its position: velocity, size, opacity
and colour of the particle at each index are the ones it had before. -/
theorem C10_frame_changes_only_positions (env : Env) (s : State) :
    (animateParticles env s).particles.length = s.particles.length ∧
      List.Forall₂ SameButPosition s.particles (animateParticles env s).particles := by
  rw [animateParticles_particles]
  split
  · refine ⟨by simp, ?_⟩
    rw [List.forall₂_map_right_iff]
    exact List.forall₂_same.2 (fun p _ => advance_same _ _ p)
  · exact ⟨rfl, List.forall₂_same.2 (fun p _ => by simp [SameButPosition])⟩

/-- C1, refuted as stated: on a 1024 by 768 page, the field made by
`initParticles` followed by one `animateParticles` call holds a particle
with `x = 1024`, so `x < surfaceWidth` fails. -/
theorem C1_counterexample :
    ¬ ∀ p ∈ ((animateParticles envEdge)^[1] (initParticles envEdge freshPage)).particles,
        0 ≤ p.x ∧ p.x < ((initParticles envEdge freshPage).canvasWidth : ℚ) ∧
        0 ≤ p.y ∧ p.y < ((initParticles envEdge freshPage).canvasHeight : ℚ) := by
  intro h
  have hi := initParticles_idle envEdge freshPage rfl rfl
  have hw : (initParticles envEdge freshPage).canvasWidth = 1024 := by
    rw [hi]; exact (animateParticles_canvas envEdge _).1
  have hh : (initParticles envEdge freshPage).canvasHeight = 768 := by
    rw [hi]; exact (animateParticles_canvas envEdge _).2.1
  have hp : (initParticles envEdge freshPage).particles =
      (created envEdge freshPage).map (advance 1024 768) := by
    rw [hi, animateParticles_particles]; simp [ctxPresent, envEdge, resized, freshPage]
  have hmem : advance 1024 768 (advance 1024 768 (newParticle envEdge (resized freshPage) 0)) ∈
      ((animateParticles envEdge)^[1] (initParticles envEdge freshPage)).particles := by
    rw [Function.iterate_one, animateParticles_particles, hp, hw, hh]
    simp only [ctxPresent, envEdge, Bool.and_self, if_true, List.map_map, List.mem_map,
      Function.comp, created]
    refine ⟨0, ?_, ?_⟩
    · simp [particleCount, isDark, freshPage]
    · simp [freshPage]
  have hx := (h _ hmem).2.1
  rw [hw] at hx
  norm_num [advance, newParticle, envEdge, resized, freshPage] at hx

/-- C1, amended: for a page with a canvas and `Math.random` in `[0, 1)`, after
`initParticles` from an idle state and any number `n` of `animateParticles`
calls with no resize in between, the canvas still has the viewport size it got
at initialisation and every particle satisfies `0 ≤ x ≤ width` and
`0 ≤ y ≤ height` (closed bounds). -/
theorem C1_positions_in_closed_box (env : Env) (s : State) (n : Nat)
    (hc : env.hasCanvas = true) (hidle : s.animationId = none)
    (hr : ∀ k, 0 ≤ env.random k ∧ env.random k < 1) :
    ((animateParticles env)^[n] (initParticles env s)).canvasWidth = s.innerWidth ∧
      ((animateParticles env)^[n] (initParticles env s)).canvasHeight = s.innerHeight ∧
      ∀ p ∈ ((animateParticles env)^[n] (initParticles env s)).particles,
        0 ≤ p.x ∧ p.x ≤ (s.innerWidth : ℚ) ∧ 0 ≤ p.y ∧ p.y ≤ (s.innerHeight : ℚ) := by
  obtain ⟨hb, hw, hh⟩ := initParticles_inBox env s hc hidle hr
  obtain ⟨hb2, hw2, hh2⟩ := iterate_inBox env n _ hb
  refine ⟨hw2.trans hw, hh2.trans hh, fun p hp => ?_⟩
  have := hb2 p hp
  rwa [hw2, hh2, hw, hh] at this

theorem envEdge_random (k : Nat) : 0 ≤ envEdge.random k ∧ envEdge.random k < 1 := by
  simp only [envEdge]
  split <;> norm_num

/-- Witness of the amended C1: the page `freshPage` under `envEdge`, three frames. -/
theorem C1_positions_in_closed_box_witness :
    envEdge.hasCanvas = true ∧ freshPage.animationId = none ∧
      (∀ k, 0 ≤ envEdge.random k ∧ envEdge.random k < 1) ∧
      ((animateParticles envEdge)^[3] (initParticles envEdge freshPage)).canvasWidth = 1024 ∧
      ((animateParticles envEdge)^[3] (initParticles envEdge freshPage)).canvasHeight = 768 ∧
      ∀ p ∈ ((animateParticles envEdge)^[3] (initParticles envEdge freshPage)).particles,
        0 ≤ p.x ∧ p.x ≤ ((1024 : Nat) : ℚ) ∧ 0 ≤ p.y ∧ p.y ≤ ((768 : Nat) : ℚ) :=
  ⟨rfl, rfl, envEdge_random,
    C1_positions_in_closed_box envEdge freshPage 3 rfl rfl envEdge_random⟩

theorem initParticles_length (env : Env) (s : State) (hc : env.hasCanvas = true)
    (hidle : s.animationId = none) :
    (initParticles env s).particles.length = particleCount s := by
  have ht : truthy s.animationId = false := by simp [hidle, truthy]
  rw [initParticles_idle env s hc ht, animateParticles_particles]
  split <;> simp [created]

theorem initParticles_mem (env : Env) (s : State) (hc : env.hasCanvas = true)
    (hidle : s.animationId = none) (p : Particle) (hp : p ∈ (initParticles env s).particles) :
    ∃ pos, SameButPosition (newParticle env (resized s) pos) p := by
  have ht : truthy s.animationId = false := by simp [hidle, truthy]
  rw [initParticles_idle env s hc ht, animateParticles_particles] at hp
  split at hp
  · simp only [created, List.map_map, List.mem_map, Function.comp] at hp
    obtain ⟨i, _, rfl⟩ := hp
    exact ⟨_, advance_same _ _ _⟩
  · simp only [created, List.mem_map] at hp
    obtain ⟨i, _, rfl⟩ := hp
    exact ⟨_, rfl, rfl, rfl, rfl, rfl⟩

theorem newParticle_dark (env : Env) (s : State) (pos : Nat) (hd : s.theme = some "dark")
    (hr : ∀ k, 0 ≤ env.random k ∧ env.random k < 1) :
    ((newParticle env s pos).color = "#08FDD8" ∨ (newParticle env s pos).color = "#B400FF") ∧
      (0.2 : ℚ) ≤ (newParticle env s pos).opacity ∧ (newParticle env s pos).opacity < 0.7 := by
  have h5 := hr (pos + 5)
  simp only [newParticle, isDark, hd, decide_True, if_true]
  refine ⟨?_, ?_, ?_⟩
  · split <;> simp
  · norm_num; linarith [h5.1]
  · norm_num; linarith [h5.2]

theorem newParticle_light (env : Env) (s : State) (pos : Nat) (hd : s.theme ≠ some "dark")
    (hr : ∀ k, 0 ≤ env.random k ∧ env.random k < 1) :
    ((newParticle env s pos).color = "#e85d75" ∨ (newParticle env s pos).color = "#f5a623") ∧
      (0.1 : ℚ) ≤ (newParticle env s pos).opacity ∧ (newParticle env s pos).opacity < 0.4 := by
  have h5 := hr (pos + 5)
  simp only [newParticle, isDark, hd, decide_False, Bool.false_eq_true, if_false]
  refine ⟨?_, ?_, ?_⟩
  · split <;> simp
  · norm_num; linarith [h5.1]
  · norm_num; linarith [h5.2]

/-- C5: from an idle state of a page with a canvas, with `Math.random` in
`[0, 1)`, `initParticles` under theme "dark" leaves exactly 80 particles, each
coloured `#08FDD8` or `#B400FF` with opacity in `[0.2, 0.7)`; under any other
value of the theme attribute (among them "light" and a missing attribute) it
leaves exactly 50 particles, each coloured `#e85d75` or `#f5a623` with opacity
in `[0.1, 0.4)`. -/
theorem C5_initial_population (env : Env) (s : State) (hc : env.hasCanvas = true)
    (hidle : s.animationId = none) (hr : ∀ k, 0 ≤ env.random k ∧ env.random k < 1) :
    (s.theme = some "dark" →
        (initParticles env s).particles.length = 80 ∧
        ∀ p ∈ (initParticles env s).particles,
          (p.color = "#08FDD8" ∨ p.color = "#B400FF") ∧ (0.2 : ℚ) ≤ p.opacity ∧ p.opacity < 0.7) ∧
      (s.theme ≠ some "dark" →
        (initParticles env s).particles.length = 50 ∧
        ∀ p ∈ (initParticles env s).particles,
          (p.color = "#e85d75" ∨ p.color = "#f5a623") ∧ (0.1 : ℚ) ≤ p.opacity ∧ p.opacity < 0.4) := by
  refine ⟨fun hd => ⟨?_, fun p hp => ?_⟩, fun hd => ⟨?_, fun p hp => ?_⟩⟩
  · rw [initParticles_length env s hc hidle]; simp [particleCount, isDark, hd]
  · obtain ⟨pos, _, _, _, ho, hcol⟩ := initParticles_mem env s hc hidle p hp
    rw [ho, hcol]
    exact newParticle_dark env (resized s) pos hd hr
  · rw [initParticles_length env s hc hidle]; simp [particleCount, isDark, hd]
  · obtain ⟨pos, _, _, _, ho, hcol⟩ := initParticles_mem env s hc hidle p hp
    rw [ho, hcol]
    exact newParticle_light env (resized s) pos hd hr

/-- Witness of C5: the light page `freshPage` under `envEdge` gets 50 particles. -/
theorem C5_initial_population_witness :
    envEdge.hasCanvas = true ∧ freshPage.animationId = none ∧
      (∀ k, 0 ≤ envEdge.random k ∧ envEdge.random k < 1) ∧
      (initParticles envEdge freshPage).particles.length = 50 ∧
      ∀ p ∈ (initParticles envEdge freshPage).particles,
        (p.color = "#e85d75" ∨ p.color = "#f5a623") ∧ (0.1 : ℚ) ≤ p.opacity ∧ p.opacity < 0.4 :=
  ⟨rfl, rfl, envEdge_random,
    (C5_initial_population envEdge freshPage rfl rfl envEdge_random).2 (by decide)⟩

/-! ## The scheduler invariant -/

theorem animateParticles_inv (env : Env) (s : State) (hp : s.pending = [])
    (hn : ctxPresent env = false → s.animationId = none)
    (hc : env.hasCanvas = false → s.particles = []) : Inv env (animateParticles env s) := by
  unfold animateParticles
  split
  · rename_i hctx
    refine ⟨by simp [hp], ?_, ?_⟩
    · intro h hh
      simp only [Option.some.injEq] at hh
      exact ⟨by omega, hctx⟩
    · intro hcan
      simp [ctxPresent, hcan] at hctx
  · rename_i hctx
    have := hn (by simpa using hctx)
    exact ⟨by simp [hp, this], by simp [this], hc⟩

theorem Inv.idle {env : Env} {s : State} (h : Inv env s) (ht : truthy s.animationId = false) :
    s.animationId = none ∧ s.pending = [] := by
  obtain ⟨h1, h2, _⟩ := h
  cases ha : s.animationId with
  | none => exact ⟨rfl, by simp [h1, ha]⟩
  | some k =>
    have := (h2 k ha).1
    simp [truthy, ha, this] at ht

theorem Inv.running {env : Env} {s : State} (h : Inv env s) (hr : s.animationId ≠ none) :
    truthy s.animationId = true := by
  cases ha : s.animationId with
  | none => exact absurd ha hr
  | some k => simp [truthy, (h.2.1 k ha).1]

theorem initParticles_inv (env : Env) (s : State) (h : Inv env s) :
    Inv env (initParticles env s) := by
  by_cases hc : env.hasCanvas = true
  · cases ht : truthy s.animationId with
    | true => simpa [initParticles, ht] using h
    | false =>
      rw [initParticles_idle env s hc ht]
      obtain ⟨ha, hp⟩ := h.idle ht
      exact animateParticles_inv env _ hp (fun _ => ha) (fun hf => by simp [hc] at hf)
  · simpa [initParticles, hc] using h

theorem clearParticles_fields (env : Env) (s : State) (h : Inv env s) :
    (clearParticles env s).particles = [] ∧ (clearParticles env s).animationId = none ∧
      (clearParticles env s).pending = [] ∧ (clearParticles env s).theme = s.theme ∧
      (clearParticles env s).innerWidth = s.innerWidth ∧
      (clearParticles env s).innerHeight = s.innerHeight ∧
      (clearParticles env s).rafCounter = s.rafCounter ∧
      (clearParticles env s).randomPos = s.randomPos := by
  obtain ⟨h1, h2, _⟩ := h
  cases ha : s.animationId with
  | none =>
    have hp : s.pending = [] := by simp [h1, ha]
    unfold clearParticles
    simp only [ha]
    split <;> simp [ha, hp]
  | some k =>
    have hk := (h2 k ha).1
    have hp : s.pending = [k] := by simp [h1, ha]
    unfold clearParticles
    simp only [ha, hk, ne_eq, not_false_eq_true, if_true]
    split <;> simp [hp]

theorem clearParticles_inv (env : Env) (s : State) (h : Inv env s) :
    Inv env (clearParticles env s) := by
  obtain ⟨hp, ha, hs, _⟩ := clearParticles_fields env s h
  exact ⟨by simp [hs, ha], by simp [ha], fun _ => hp⟩

theorem toggleTheme_inv (env : Env) (s : State) (h : Inv env s) :
    Inv env (toggleTheme env s) := by
  unfold toggleTheme
  apply initParticles_inv
  apply clearParticles_inv
  exact h

theorem resizeCanvas_inv (env : Env) (s : State) (h : Inv env s) :
    Inv env (resizeCanvas env s) := by
  unfold resizeCanvas
  split
  · exact h
  · exact h

theorem fireFrame_inv (env : Env) (k : Nat) (s : State) (h : Inv env s) :
    Inv env (fireFrame env k s) := by
  unfold fireFrame
  split
  · rename_i hk
    obtain ⟨h1, h2, h3⟩ := h
    cases ha : s.animationId with
    | none => simp [h1, ha] at hk
    | some j =>
      have hp : s.pending = [j] := by simp [h1, ha]
      have hkj : k = j := by simpa [hp] using hk
      apply animateParticles_inv
      · simp [hp, hkj]
      · intro hf
        have := (h2 j ha).2
        simp [hf] at this
      · exact h3
  · exact h

theorem Reachable.inv {env : Env} {s : State} (h : Reachable env s) : Inv env s := by
  induction h with
  | start s hp ha hs => exact ⟨by simp [hs, ha], by simp [ha], fun _ => hp⟩
  | init s _ ih => exact initParticles_inv env s ih
  | clear s _ ih => exact clearParticles_inv env s ih
  | toggle s _ ih => exact toggleTheme_inv env s ih
  | resize s _ ih => exact resizeCanvas_inv env s ih
  | fire s k _ ih => exact fireFrame_inv env k s ih
  | viewport s w ht _ ih => exact ih
  | otherRaf s _ ih => exact ih

/-- C2: in every state reachable from a page with no particle, `animationId`
null and nothing scheduled, at most one `animateParticles` callback is
scheduled, one is scheduled exactly when `animationId` is non-null, and the
scheduled one is the one whose handle `animationId` holds. -/
theorem C2_single_scheduled_frame (env : Env) (s : State) (h : Reachable env s) :
    s.pending.length ≤ 1 ∧ (s.pending.length = 1 ↔ s.animationId ≠ none) ∧
      s.pending = s.animationId.toList := by
  obtain ⟨h1, _, _⟩ := h.inv
  refine ⟨?_, ?_, h1⟩
  · rw [h1]; cases s.animationId <;> simp
  · rw [h1]; cases s.animationId <;> simp

/-- Witness of C2: the state right after the first `initParticles` of a page,
and the state after the scheduler fired the first frame. -/
theorem C2_single_scheduled_frame_witness :
    Reachable envEdge (fireFrame envEdge 1 (initParticles envEdge freshPage)) ∧
      (fireFrame envEdge 1 (initParticles envEdge freshPage)).pending.length ≤ 1 ∧
      ((fireFrame envEdge 1 (initParticles envEdge freshPage)).pending.length = 1 ↔
        (fireFrame envEdge 1 (initParticles envEdge freshPage)).animationId ≠ none) ∧
      (fireFrame envEdge 1 (initParticles envEdge freshPage)).pending =
        (fireFrame envEdge 1 (initParticles envEdge freshPage)).animationId.toList :=
  ⟨Reachable.fire _ 1 (Reachable.init _ (Reachable.start freshPage rfl rfl rfl)),
    C2_single_scheduled_frame envEdge _
      (Reachable.fire _ 1 (Reachable.init _ (Reachable.start freshPage rfl rfl rfl)))⟩

/-! ## Lifecycle: clear, initialise, the running guard, the missing canvas -/

theorem initParticles_running (env : Env) (s : State) (hc : ctxPresent env = true)
    (hidle : s.animationId = none) (hp : s.pending = []) :
    (initParticles env s).animationId = some (s.rafCounter + 1) ∧
      (initParticles env s).pending = [s.rafCounter + 1] := by
  have hcan : env.hasCanvas = true := by
    simp only [ctxPresent, Bool.and_eq_true] at hc; exact hc.1
  have ht : truthy s.animationId = false := by simp [hidle, truthy]
  rw [initParticles_idle env s hcan ht]
  simp [animateParticles, hc, resized, hp]

/-- C6: in every reachable state, `clearParticles` leaves no particle,
`animationId` null and nothing scheduled; and on a page with canvas and
context a following `initParticles` is honoured: it leaves 80 particles under
theme "dark" and 50 otherwise, a non-null `animationId`, and exactly the
frame with that handle scheduled. -/
theorem C6_clear_then_init (env : Env) (s : State) (h : Reachable env s) :
    (clearParticles env s).particles = [] ∧
      (clearParticles env s).animationId = none ∧
      (clearParticles env s).pending = [] ∧
      (ctxPresent env = true →
        (initParticles env (clearParticles env s)).particles.length =
            (if s.theme = some "dark" then 80 else 50) ∧
          (initParticles env (clearParticles env s)).animationId ≠ none ∧
          (initParticles env (clearParticles env s)).pending =
            (initParticles env (clearParticles env s)).animationId.toList ∧
          (initParticles env (clearParticles env s)).pending.length = 1) := by
  obtain ⟨hp, ha, hs, hth, _⟩ := clearParticles_fields env s h.inv
  refine ⟨hp, ha, hs, fun hc => ?_⟩
  have hcan : env.hasCanvas = true := by
    simp only [ctxPresent, Bool.and_eq_true] at hc; exact hc.1
  obtain ⟨h1, h2⟩ := initParticles_running env _ hc ha hs
  refine ⟨?_, by simp [h1], by simp [h1, h2], by simp [h2]⟩
  rw [initParticles_length env _ hcan ha]
  simp only [particleCount, isDark, hth]
  by_cases hd : s.theme = some "dark" <;> simp [hd]

/-- Witness of C6: clearing the running field of `freshPage` and initialising again. -/
theorem C6_clear_then_init_witness :
    Reachable envEdge (initParticles envEdge freshPage) ∧
      (clearParticles envEdge (initParticles envEdge freshPage)).particles = [] ∧
      (clearParticles envEdge (initParticles envEdge freshPage)).animationId = none ∧
      (clearParticles envEdge (initParticles envEdge freshPage)).pending = [] ∧
      (ctxPresent envEdge = true →
        (initParticles envEdge
            (clearParticles envEdge (initParticles envEdge freshPage))).particles.length =
            (if (initParticles envEdge freshPage).theme = some "dark" then 80 else 50) ∧
          (initParticles envEdge
            (clearParticles envEdge (initParticles envEdge freshPage))).animationId ≠ none ∧
          (initParticles envEdge
            (clearParticles envEdge (initParticles envEdge freshPage))).pending =
            (initParticles envEdge
              (clearParticles envEdge (initParticles envEdge freshPage))).animationId.toList ∧
          (initParticles envEdge
            (clearParticles envEdge (initParticles envEdge freshPage))).pending.length = 1) :=
  ⟨Reachable.init _ (Reachable.start freshPage rfl rfl rfl),
    C6_clear_then_init envEdge _ (Reachable.init _ (Reachable.start freshPage rfl rfl rfl))⟩

/-- C7: in every reachable state whose `animationId` is non-null,
`initParticles` returns the state unchanged (particles, handle, canvas size,
scheduled frames and everything else); hence, on a page with canvas and
context, `initParticles` leaves the field running and a second
`initParticles` right after it changes nothing. -/
theorem C7_init_guard (env : Env) (s : State) (h : Reachable env s) :
    (s.animationId ≠ none → initParticles env s = s) ∧
      (ctxPresent env = true →
        (initParticles env s).animationId ≠ none ∧
          initParticles env (initParticles env s) = initParticles env s) := by
  have key : ∀ t, Reachable env t → t.animationId ≠ none → initParticles env t = t := by
    intro t ht hr
    simp [initParticles, ht.inv.running hr]
  refine ⟨key s h, fun hc => ?_⟩
  have hrun : (initParticles env s).animationId ≠ none := by
    cases ha : s.animationId with
    | some k =>
      rw [key s h (by simp [ha])]; simp [ha]
    | none =>
      have hp : s.pending = [] := by simp [h.inv.1, ha]
      simp [(initParticles_running env s hc ha hp).1]
  exact ⟨hrun, key _ (Reachable.init s h) hrun⟩

/-- Witness of C7: the page `freshPage` under `envEdge`. -/
theorem C7_init_guard_witness :
    Reachable envEdge freshPage ∧
      (freshPage.animationId ≠ none → initParticles envEdge freshPage = freshPage) ∧
      (ctxPresent envEdge = true →
        (initParticles envEdge freshPage).animationId ≠ none ∧
          initParticles envEdge (initParticles envEdge freshPage) =
            initParticles envEdge freshPage) :=
  ⟨Reachable.start freshPage rfl rfl rfl,
    C7_init_guard envEdge freshPage (Reachable.start freshPage rfl rfl rfl)⟩

/-- C8, refuted as stated: on a page whose canvas exists but whose 2D
context is null, starting from the reachable state `freshPage`,
`resizeCanvas` changes the canvas width from 300 to 1024, `initParticles`
creates 50 particles, and `clearParticles` then empties that list. -/
theorem C8_counterexample :
    ctxPresent envNoContext = false ∧ Reachable envNoContext freshPage ∧
      freshPage.canvasWidth = 300 ∧
      (resizeCanvas envNoContext freshPage).canvasWidth = 1024 ∧
      freshPage.particles.length = 0 ∧
      (initParticles envNoContext freshPage).particles.length = 50 ∧
      (clearParticles envNoContext (initParticles envNoContext freshPage)).particles.length = 0 := by
  refine ⟨rfl, Reachable.start freshPage rfl rfl rfl, rfl, rfl, rfl, ?_, ?_⟩
  · rw [initParticles_length envNoContext freshPage rfl rfl]; rfl
  · rw [(clearParticles_fields envNoContext _
      (Reachable.init _ (Reachable.start freshPage rfl rfl rfl)).inv).1]; rfl

/-- C8, amended: on a page without the canvas element each of
`resizeCanvas`, `initParticles`, `clearParticles` and `animateParticles`
returns every reachable state unchanged; on a page whose canvas exists but
whose 2D context is null, `animateParticles` returns every reachable state
unchanged. -/
theorem C8_missing_surface (env : Env) (s : State) (h : Reachable env s) :
    (env.hasCanvas = false →
        resizeCanvas env s = s ∧ initParticles env s = s ∧
        clearParticles env s = s ∧ animateParticles env s = s) ∧
      (ctxPresent env = false → animateParticles env s = s) := by
  refine ⟨fun hc => ⟨?_, ?_, ?_, ?_⟩, fun hc => ?_⟩
  · simp [resizeCanvas, hc]
  · simp [initParticles, hc]
  · obtain ⟨_, h2, h3⟩ := h.inv
    have hp := h3 hc
    have ha : s.animationId = none := by
      cases ha : s.animationId with
      | none => rfl
      | some k =>
        have := (h2 k ha).2
        simp [ctxPresent, hc] at this
    cases s
    simp_all [clearParticles, ctxPresent]
  · simp [animateParticles, ctxPresent, hc]
  · simp [animateParticles, hc]

/-- Witness of the amended C8: the page `freshPage` without canvas. -/
theorem C8_missing_surface_witness :
    Reachable envNoCanvas freshPage ∧
      (envNoCanvas.hasCanvas = false →
        resizeCanvas envNoCanvas freshPage = freshPage ∧
        initParticles envNoCanvas freshPage = freshPage ∧
        clearParticles envNoCanvas freshPage = freshPage ∧
        animateParticles envNoCanvas freshPage = freshPage) ∧
      (ctxPresent envNoCanvas = false → animateParticles envNoCanvas freshPage = freshPage) :=
  ⟨Reachable.start freshPage rfl rfl rfl,
    C8_missing_surface envNoCanvas freshPage (Reachable.start freshPage rfl rfl rfl)⟩

/-! ## What one frame paints -/

theorem connect_eq (sqrt : ℚ → ℚ) (m : ℚ) (p : Particle) (index k : Nat)
    (arr : List Particle) :
    connect sqrt m p index k arr =
      (arr.enumFrom k).flatMap
        (fun jq => if index ≠ jq.1 then connectPair sqrt m p jq.2 else []) := by
  induction arr generalizing k with
  | nil => simp [connect]
  | cons a rest ih => simp [connect, ih]

theorem seen_before (sqrt : ℚ → ℚ) (W H m : ℚ) (p : Particle) (index : Nat)
    (D : List Particle) (k : Nat) (hk : k + D.length ≤ index) :
    ((D.map (advance W H)).enumFrom k).flatMap
        (fun jq => if index ≠ jq.1 then connectPair sqrt m p jq.2 else []) =
      (D.enumFrom k).flatMap
        (fun jq => if index ≠ jq.1 then connectPair sqrt m p (seenBy W H index jq.1 jq.2)
          else []) := by
  induction D generalizing k with
  | nil => simp
  | cons d rest ih =>
    simp only [List.length_cons] at hk
    have hlt : k < index := by omega
    simp only [List.map_cons, List.enumFrom_cons, List.flatMap_cons, seenBy, hlt, if_true]
    rw [ih (k + 1) (by omega)]
    simp only [seenBy]

theorem seen_after (sqrt : ℚ → ℚ) (W H m : ℚ) (p : Particle) (index : Nat)
    (R : List Particle) (k : Nat) (hk : index < k) :
    (R.enumFrom k).flatMap
        (fun jq => if index ≠ jq.1 then connectPair sqrt m p jq.2 else []) =
      (R.enumFrom k).flatMap
        (fun jq => if index ≠ jq.1 then connectPair sqrt m p (seenBy W H index jq.1 jq.2)
          else []) := by
  induction R generalizing k with
  | nil => simp
  | cons d rest ih =>
    have hn : ¬ k < index := by omega
    simp only [List.enumFrom_cons, List.flatMap_cons, seenBy, hn, if_false]
    rw [ih (k + 1) (by omega)]
    simp only [seenBy]

theorem connect_seen (sqrt : ℚ → ℚ) (W H m : ℚ) (D : List Particle) (p : Particle)
    (R : List Particle) :
    connect sqrt m (advance W H p) D.length 0 (D.map (advance W H) ++ advance W H p :: R) =
      ((D ++ p :: R).enumFrom 0).flatMap
        (fun jq => if D.length ≠ jq.1 then
          connectPair sqrt m (advance W H p) (seenBy W H D.length jq.1 jq.2) else []) := by
  rw [connect_eq, List.enumFrom_append, List.enumFrom_append, List.flatMap_append,
    List.flatMap_append, seen_before sqrt W H m _ D.length D 0 (by omega)]
  simp only [List.length_map, Nat.zero_add, List.enumFrom_cons, List.flatMap_cons, ne_eq,
    not_true_eq_false, if_false, List.nil_append]
  rw [seen_after sqrt W H m _ D.length R (D.length + 1) (by omega)]

theorem forEachParticle_snd (sqrt : ℚ → ℚ) (W H m : ℚ) (D todo : List Particle) :
    (forEachParticle sqrt W H m (D.map (advance W H)) todo).2 =
      (todo.enumFrom D.length).flatMap (fun ip =>
        Cmd.circle (advance W H ip.2).x (advance W H ip.2).y (advance W H ip.2).size
            (advance W H ip.2).color (advance W H ip.2).opacity ::
          ((D ++ todo).enumFrom 0).flatMap (fun jq =>
            if ip.1 ≠ jq.1 then
              connectPair sqrt m (advance W H ip.2) (seenBy W H ip.1 jq.1 jq.2)
            else [])) := by
  induction todo generalizing D with
  | nil => simp [forEachParticle]
  | cons p rest ih =>
    have hd : D.map (advance W H) ++ [advance W H p] = (D ++ [p]).map (advance W H) := by simp
    simp only [forEachParticle, List.length_map, List.enumFrom_cons, List.flatMap_cons]
    rw [hd, ih (D ++ [p]), connect_seen]
    simp

theorem filter_isLine_connectPair (sqrt : ℚ → ℚ) (m : ℚ) (p q : Particle) :
    (connectPair sqrt m p q).filter isLine = connectPair sqrt m p q := by
  unfold connectPair
  split <;> simp [isLine]

/-- What the frame paints, particle by particle: after `clearRect`, for each
index in order, the circle of the advanced particle followed by its lines to
the other indices in order, and `globalAlpha = 1` at the end. -/
theorem frameCmds_eq (env : Env) (s : State) :
    frameCmds env s =
      Cmd.clearRect s.canvasWidth s.canvasHeight ::
        (s.particles.enum.flatMap (fun ip =>
          Cmd.circle (advance s.canvasWidth s.canvasHeight ip.2).x
              (advance s.canvasWidth s.canvasHeight ip.2).y
              (advance s.canvasWidth s.canvasHeight ip.2).size
              (advance s.canvasWidth s.canvasHeight ip.2).color
              (advance s.canvasWidth s.canvasHeight ip.2).opacity ::
            s.particles.enum.flatMap (fun jq =>
              if ip.1 ≠ jq.1 then
                connectPair env.sqrt (lineOpacityMultiplier (isDark s))
                  (advance s.canvasWidth s.canvasHeight ip.2)
                  (seenBy s.canvasWidth s.canvasHeight ip.1 jq.1 jq.2)
              else []))) ++ [Cmd.setAlpha 1] := by
  have h := forEachParticle_snd env.sqrt s.canvasWidth s.canvasHeight
    (lineOpacityMultiplier (isDark s)) [] s.particles
  simp only [List.map_nil, List.length_nil, List.nil_append] at h
  simp only [frameCmds, h, List.enum]

/-- C3, amended: the lines one `animateParticles` call draws are, for every
ordered pair of distinct indices `(i, j)` taken in the order of the two nested
loops, one line from particle `i` to particle `j` exactly when the distance
between the advanced particle `i` and particle `j` as found in the array at
that moment (already advanced when `j < i`, not yet advanced when `i < j`) is
below 150, in the colour of particle `i` and with opacity
`(150 - distance) / 150 * lineOpacityMultiplier`. -/
theorem C3_lines_per_ordered_pair (env : Env) (s : State) :
    (frameCmds env s).filter isLine =
      s.particles.enum.flatMap (fun ip =>
        s.particles.enum.flatMap (fun jq =>
          if ip.1 ≠ jq.1 ∧
              distance env.sqrt (advance s.canvasWidth s.canvasHeight ip.2)
                (seenBy s.canvasWidth s.canvasHeight ip.1 jq.1 jq.2) < 150 then
            [Cmd.line (advance s.canvasWidth s.canvasHeight ip.2).x
              (advance s.canvasWidth s.canvasHeight ip.2).y
              (seenBy s.canvasWidth s.canvasHeight ip.1 jq.1 jq.2).x
              (seenBy s.canvasWidth s.canvasHeight ip.1 jq.1 jq.2).y
              (advance s.canvasWidth s.canvasHeight ip.2).color
              ((150 - distance env.sqrt (advance s.canvasWidth s.canvasHeight ip.2)
                  (seenBy s.canvasWidth s.canvasHeight ip.1 jq.1 jq.2)) / 150 *
                lineOpacityMultiplier (isDark s))]
          else [])) := by
  rw [frameCmds_eq]
  simp only [List.filter_cons, List.filter_append, isLine, Bool.false_eq_true, if_false,
    List.filter_nil, List.append_nil, List.filter_flatMap]
  apply List.flatMap_congr
  intro ip _
  apply List.flatMap_congr
  intro jq _
  by_cases hne : ip.1 = jq.1
  · simp [hne]
  · simp only [ne_eq, hne, not_false_eq_true, if_true, true_and, filter_isLine_connectPair]
    simp only [connectPair, lineAlpha]

/-! ## The concrete square root -/

theorem sqrtIter_eq (n fuel guess : Nat) (h : guess ≤ fuel) :
    sqrtIter n fuel guess = Nat.sqrt.iter n guess := by
  induction fuel generalizing guess with
  | zero =>
    obtain rfl : guess = 0 := by omega
    rw [Nat.sqrt.iter]
    simp [sqrtIter]
  | succ fuel ih =>
    rw [Nat.sqrt.iter, sqrtIter]
    by_cases hlt : (guess + n / guess) / 2 < guess
    · simp only [hlt, if_true, dif_pos]
      exact ih _ (by omega)
    · simp only [hlt, if_false, dif_neg, not_false_eq_true]

theorem natSqrt_eq (n : Nat) : natSqrt n = Nat.sqrt n := by
  unfold natSqrt Nat.sqrt
  split
  · rfl
  · exact sqrtIter_eq n n (n / 2) (Nat.div_le_self n 2)

theorem sqrtOnSquares_eq (q : ℚ) : sqrtOnSquares q = Rat.sqrt q := by
  simp [sqrtOnSquares, Rat.sqrt, Int.sqrt, natSqrt_eq]

theorem sqrtOnSquares_sq (q : ℚ) : sqrtOnSquares (q * q) = |q| := by
  rw [sqrtOnSquares_eq, Rat.sqrt_eq]

theorem frameCmds_congr (env : Env) (s t : State) (h1 : s.particles = t.particles)
    (h2 : s.canvasWidth = t.canvasWidth) (h3 : s.canvasHeight = t.canvasHeight)
    (h4 : isDark s = isDark t) : frameCmds env s = frameCmds env t := by
  simp only [frameCmds, h1, h2, h3, h4]

theorem envCross_init :
    (initParticles envCross freshPage).particles = crossParticles ∧
      (initParticles envCross freshPage).canvasWidth = 1024 ∧
      (initParticles envCross freshPage).canvasHeight = 768 ∧
      isDark (initParticles envCross freshPage) = false := by
  refine ⟨?_, ?_, ?_, ?_⟩
  · decide!
  · decide!
  · decide!
  · decide!

/-- C3, refuted as stated: on the reachable state right after
`initParticles` of the page `envCross`, the next frame draws 2353 lines while
only 1176 pairs of particles are closer than 150 after that frame; among the
lines drawn is one from particle 0 at `(512, 384)` to the not yet advanced
particle 1 at `(661.875, 384)`, although after the frame these two particles
are `150.0625` apart. -/
theorem C3_counterexample :
    ((frameCmds envCross (initParticles envCross freshPage)).filter isLine).length = 2353 ∧
      (specLines envCross.sqrt
        (lineOpacityMultiplier (isDark (initParticles envCross freshPage)))
        (animateParticles envCross (initParticles envCross freshPage)).particles).length = 1176 ∧
      (frameCmds envCross (initParticles envCross freshPage))[2]? =
        some (Cmd.line 512 384 (5295 / 8) 384 "#f5a623" (1 / 12000)) ∧
      ((animateParticles envCross (initParticles envCross freshPage)).particles.map
        (fun p => (p.x, p.y))).take 2 = [(512, 384), (10593 / 16, 384)] := by
  obtain ⟨hp, hw, hh, hd⟩ := envCross_init
  have hf : frameCmds envCross (initParticles envCross freshPage) =
      frameCmds envCross (pageWith (some "light") crossParticles) :=
    frameCmds_congr _ _ _ hp hw hh hd
  have ha : (animateParticles envCross (initParticles envCross freshPage)).particles =
      crossParticles.map (advance 1024 768) := by
    rw [animateParticles_particles, hp, hw, hh]
    simp [ctxPresent, envCross]
  rw [hf, ha, hd]
  refine ⟨?_, ?_, ?_, ?_⟩
  · decide!
  · decide!
  · decide!
  · decide!

/-! ## The theme flag during a frame -/

theorem connectPair_scale (sqrt : ℚ → ℚ) (m1 m2 : ℚ) (p q : Particle) :
    (connectPair sqrt m1 p q).map (scaleLine m2) =
      (connectPair sqrt m2 p q).map (scaleLine m1) := by
  unfold connectPair
  split
  · simp only [List.map_cons, List.map_nil, scaleLine, lineAlpha]
    congr 2
    ring
  · rfl

theorem scaleLine_notLine (a b : ℚ) (c d : Cmd) (h : scaleLine a c = scaleLine b d) :
    isLine c = isLine d ∧ (isLine c = false → c = d) := by
  cases c <;> cases d <;> simp_all [scaleLine, isLine]

theorem filter_notLine_of_scale (a b : ℚ) (l1 l2 : List Cmd)
    (h : l1.map (scaleLine a) = l2.map (scaleLine b)) :
    l1.filter (fun c => !isLine c) = l2.filter (fun c => !isLine c) := by
  induction l1 generalizing l2 with
  | nil =>
    cases l2 with
    | nil => rfl
    | cons d l2 => simp at h
  | cons c l1 ih =>
    cases l2 with
    | nil => simp at h
    | cons d l2 =>
      simp only [List.map_cons, List.cons.injEq] at h
      obtain ⟨h1, h2⟩ := scaleLine_notLine a b c d h.1
      cases hc : isLine c with
      | true =>
        have hd : isLine d = true := by rw [← h1, hc]
        simp [List.filter_cons, hc, hd, ih l2 h.2]
      | false =>
        have hd : isLine d = false := by rw [← h1, hc]
        simp [List.filter_cons, hc, hd, ih l2 h.2, h2 hc]

theorem frameCmds_scale (env : Env) (s : State) (t1 t2 : Option String) :
    (frameCmds env { s with theme := t1 }).map
        (scaleLine (lineOpacityMultiplier (isDark { s with theme := t2 }))) =
      (frameCmds env { s with theme := t2 }).map
        (scaleLine (lineOpacityMultiplier (isDark { s with theme := t1 }))) := by
  rw [frameCmds_eq, frameCmds_eq]
  simp only [List.map_cons, List.map_append, List.map_nil, scaleLine, List.map_flatMap]
  congr 2
  apply List.flatMap_congr
  intro ip _
  congr 1
  apply List.flatMap_congr
  intro jq _
  split
  · exact connectPair_scale _ _ _ _ _
  · rfl

theorem lineOpacityMultiplier_pos (dark : Bool) : 0 < lineOpacityMultiplier dark := by
  unfold lineOpacityMultiplier
  split <;> norm_num

theorem lineOpacityMultiplier_inj (a b : Bool)
    (h : lineOpacityMultiplier a = lineOpacityMultiplier b) : a = b := by
  cases a <;> cases b <;> simp [lineOpacityMultiplier] at h ⊢ <;> norm_num at h

theorem frameCmds_line_pos (env : Env) (s : State) (x1 y1 x2 y2 : ℚ) (c : String) (a : ℚ)
    (h : Cmd.line x1 y1 x2 y2 c a ∈ frameCmds env s) : 0 < a := by
  rw [frameCmds_eq] at h
  simp only [List.mem_cons, List.mem_append, List.mem_flatMap, List.mem_singleton,
    List.not_mem_nil, or_false, false_or] at h
  rcases h with (h | ⟨ip, _, h | ⟨jq, _, h⟩⟩) | h
  · exact absurd h (by simp)
  · exact absurd h (by simp)
  rotate_left
  · exact absurd h (by simp)
  split at h
  · unfold connectPair at h
    split at h
    · rename_i hd
      simp only [List.mem_singleton, Cmd.line.injEq] at h
      rw [h.2.2.2.2.2, lineAlpha]
      exact mul_pos (div_pos (by linarith) (by norm_num)) (lineOpacityMultiplier_pos _)
    · simp at h
  · simp at h

theorem eq_of_scale_of_noLine (a b : ℚ) (l1 l2 : List Cmd)
    (h : l1.map (scaleLine a) = l2.map (scaleLine b))
    (hn : l1.filter isLine = []) : l1 = l2 := by
  induction l1 generalizing l2 with
  | nil =>
    cases l2 with
    | nil => rfl
    | cons d l2 => simp at h
  | cons c l1 ih =>
    cases l2 with
    | nil => simp at h
    | cons d l2 =>
      simp only [List.map_cons, List.cons.injEq] at h
      have hc : isLine c = false := by
        cases hc : isLine c with
        | true => simp [List.filter_cons, hc] at hn
        | false => rfl
      have hn2 : l1.filter isLine = [] := by
        simpa [List.filter_cons, hc] using hn
      rw [(scaleLine_notLine a b c d h.1).2 hc, ih l2 h.2 hn2]

theorem noLine_of_eq (env : Env) (s : State) (t1 t2 : Option String)
    (h : frameCmds env { s with theme := t1 } = frameCmds env { s with theme := t2 })
    (hd : isDark { s with theme := t1 } ≠ isDark { s with theme := t2 }) :
    (frameCmds env { s with theme := t1 }).filter isLine = [] := by
  have hs := frameCmds_scale env s t1 t2
  rw [← h] at hs
  rw [List.filter_eq_nil_iff]
  intro x hx
  have hx2 := List.map_inj_left.1 hs x hx
  cases x with
  | line x1 y1 x2 y2 c a =>
    exfalso
    have ha := frameCmds_line_pos env _ x1 y1 x2 y2 c a hx
    simp only [scaleLine, Cmd.line.injEq, true_and] at hx2
    have hm := mul_left_cancel₀ ha.ne' hx2
    exact hd (lineOpacityMultiplier_inj _ _ hm).symm
  | clearRect w h => simp [isLine]
  | circle x y r f al => simp [isLine]
  | setAlpha al => simp [isLine]

/-- C4, amended: for two states that differ only in the theme attribute,
`animateParticles` makes the same particle updates, schedules the same frame
and paints the same primitives in the same order with the same geometry and
colours; every primitive that is not a line is identical, circles with their
opacity included; the opacities of corresponding lines are in the ratio of
the line multipliers of the two theme attributes (0.2 for "dark", 0.1
otherwise); and the two frames paint identically exactly when the two
attributes agree on being "dark" or the frame draws no line at all. -/
theorem C4_theme_scales_line_opacity (env : Env) (s : State) (t1 t2 : Option String) :
    (animateParticles env { s with theme := t1 }).particles =
        (animateParticles env { s with theme := t2 }).particles ∧
      (animateParticles env { s with theme := t1 }).animationId =
        (animateParticles env { s with theme := t2 }).animationId ∧
      (animateParticles env { s with theme := t1 }).pending =
        (animateParticles env { s with theme := t2 }).pending ∧
      (frameCmds env { s with theme := t1 }).map
          (scaleLine (lineOpacityMultiplier (isDark { s with theme := t2 }))) =
        (frameCmds env { s with theme := t2 }).map
          (scaleLine (lineOpacityMultiplier (isDark { s with theme := t1 }))) ∧
      (lineOpacityMultiplier (isDark { s with theme := t1 }) =
        if t1 = some "dark" then 0.2 else 0.1) ∧
      (lineOpacityMultiplier (isDark { s with theme := t2 }) =
        if t2 = some "dark" then 0.2 else 0.1) ∧
      (frameCmds env { s with theme := t1 }).filter (fun c => !isLine c) =
        (frameCmds env { s with theme := t2 }).filter (fun c => !isLine c) ∧
      (frameCmds env { s with theme := t1 } = frameCmds env { s with theme := t2 } ↔
        isDark { s with theme := t1 } = isDark { s with theme := t2 } ∨
          (frameCmds env { s with theme := t1 }).filter isLine = []) := by
  refine ⟨?_, ?_, ?_, frameCmds_scale env s t1 t2, ?_, ?_,
    filter_notLine_of_scale _ _ _ _ (frameCmds_scale env s t1 t2), ?_, ?_⟩
  · simp only [animateParticles_particles]
  · unfold animateParticles; split <;> rfl
  · unfold animateParticles; split <;> rfl
  · simp [lineOpacityMultiplier, isDark]
  · simp [lineOpacityMultiplier, isDark]
  · intro h
    by_cases hd : isDark { s with theme := t1 } = isDark { s with theme := t2 }
    · exact Or.inl hd
    · exact Or.inr (noLine_of_eq env s t1 t2 h hd)
  · rintro (h | h)
    · simp only [frameCmds, h]
    · exact eq_of_scale_of_noLine _ _ _ _ (frameCmds_scale env s t1 t2) h

theorem envStill_init :
    (initParticles envStill freshPage).particles = stillParticles ∧
      (initParticles envStill freshPage).canvasWidth = 1024 ∧
      (initParticles envStill freshPage).canvasHeight = 768 ∧
      (initParticles envStill freshPage).theme = some "light" ∧
      (initParticles envStill freshPage).animationId = some 1 ∧
      (initParticles envStill freshPage).pending = [1] := by
  refine ⟨?_, ?_, ?_, ?_, ?_, ?_⟩
  · decide!
  · decide!
  · decide!
  · decide!
  · decide!
  · decide!

/-- C4, refuted as stated: the field started on the light page `freshPage`
under `envStill` is running; its next frame draws its first line with opacity
`1/10`, and the same state with only the theme attribute changed to "dark"
draws that line with opacity `1/5`. -/
theorem C4_counterexample :
    (initParticles envStill freshPage).theme = some "light" ∧
      (initParticles envStill freshPage).animationId = some 1 ∧
      (initParticles envStill freshPage).pending = [1] ∧
      (frameCmds envStill (initParticles envStill freshPage))[2]? =
        some (Cmd.line 512 384 512 384 "#f5a623" (1 / 10)) ∧
      (frameCmds envStill { initParticles envStill freshPage with theme := some "dark" })[2]? =
        some (Cmd.line 512 384 512 384 "#f5a623" (1 / 5)) := by
  obtain ⟨hp, hw, hh, ht, ha, hs⟩ := envStill_init
  have h1 : frameCmds envStill (initParticles envStill freshPage) =
      frameCmds envStill (pageWith (some "light") stillParticles) :=
    frameCmds_congr _ _ _ hp hw hh (by simp [isDark, ht, pageWith])
  have h2 : frameCmds envStill { initParticles envStill freshPage with theme := some "dark" } =
      frameCmds envStill (pageWith (some "dark") stillParticles) :=
    frameCmds_congr _ _ _ hp hw hh rfl
  rw [h1, h2]
  refine ⟨ht, ha, hs, ?_, ?_⟩
  · decide!
  · decide!

/-! ## Line 120 in binary64 arithmetic -/

theorem roundHalfEven_mono {q r : ℚ} (h : q ≤ r) : roundHalfEven q ≤ roundHalfEven r := by
  have hf := Int.floor_mono h
  rcases hf.lt_or_eq with hlt | heq
  · have h1 : roundHalfEven q ≤ ⌊q⌋ + 1 := by
      unfold roundHalfEven; split_ifs <;> omega
    have h2 : ⌊r⌋ ≤ roundHalfEven r := by
      unfold roundHalfEven; split_ifs <;> omega
    omega
  · unfold roundHalfEven
    rw [← heq]
    split_ifs <;> first | omega | (exfalso; linarith)

theorem roundHalfEven_intCast (n : ℤ) : roundHalfEven (n : ℚ) = n := by
  simp [roundHalfEven]

theorem log_bounds {x : ℚ} (hx : 0 < x) :
    (2 : ℚ) ^ (Int.log 2 x) ≤ x ∧ x < (2 : ℚ) ^ (Int.log 2 x + 1) := by
  have h1 := Int.zpow_log_le_self (b := 2) (by norm_num) hx
  have h2 := Int.lt_zpow_succ_log_self (b := 2) (by norm_num) x
  exact ⟨by simpa using h1, by simpa using h2⟩

theorem log_eq {x : ℚ} {e : ℤ} (h1 : (2 : ℚ) ^ e ≤ x) (h2 : x < (2 : ℚ) ^ (e + 1)) :
    Int.log 2 x = e := by
  have hx : 0 < x := lt_of_lt_of_le (zpow_pos (by norm_num) e) h1
  apply le_antisymm
  · have := (Int.lt_zpow_iff_log_lt (b := 2) (by norm_num) hx).1 (by simpa using h2)
    omega
  · exact (Int.zpow_le_iff_le_log (b := 2) (by norm_num) hx).1 (by simpa using h1)

/-- The scaled significand of a positive rational lies in `[2^52, 2^53)`. -/
theorem significand_bounds {x : ℚ} (hx : 0 < x) :
    ((2 ^ 52 : ℤ) : ℚ) ≤ x / 2 ^ (Int.log 2 x - 52) ∧
      x / 2 ^ (Int.log 2 x - 52) < ((2 ^ 53 : ℤ) : ℚ) := by
  obtain ⟨h1, h2⟩ := log_bounds hx
  have hu : (0 : ℚ) < 2 ^ (Int.log 2 x - 52) := zpow_pos (by norm_num) _
  have e1 : (2 : ℚ) ^ (Int.log 2 x) = 2 ^ (52 : ℤ) * 2 ^ (Int.log 2 x - 52) := by
    rw [← zpow_add₀ (by norm_num)]; congr 1; ring
  have e2 : (2 : ℚ) ^ (Int.log 2 x + 1) = 2 ^ (53 : ℤ) * 2 ^ (Int.log 2 x - 52) := by
    rw [← zpow_add₀ (by norm_num)]; congr 1; ring
  constructor
  · rw [le_div_iff₀ hu]
    calc ((2 ^ 52 : ℤ) : ℚ) * 2 ^ (Int.log 2 x - 52) = 2 ^ (Int.log 2 x) := by
          rw [e1]; norm_num
      _ ≤ x := h1
  · rw [div_lt_iff₀ hu]
    calc x < 2 ^ (Int.log 2 x + 1) := h2
      _ = ((2 ^ 53 : ℤ) : ℚ) * 2 ^ (Int.log 2 x - 52) := by rw [e2]; norm_num

theorem roundPos_bounds {x : ℚ} (hx : 0 < x) :
    (2 : ℚ) ^ (Int.log 2 x) ≤ roundPos x ∧ roundPos x ≤ (2 : ℚ) ^ (Int.log 2 x + 1) := by
  obtain ⟨h1, h2⟩ := significand_bounds hx
  have hu : (0 : ℚ) < 2 ^ (Int.log 2 x - 52) := zpow_pos (by norm_num) _
  have e1 : (2 : ℚ) ^ (Int.log 2 x) = 2 ^ (52 : ℤ) * 2 ^ (Int.log 2 x - 52) := by
    rw [← zpow_add₀ (by norm_num)]; congr 1; ring
  have e2 : (2 : ℚ) ^ (Int.log 2 x + 1) = 2 ^ (53 : ℤ) * 2 ^ (Int.log 2 x - 52) := by
    rw [← zpow_add₀ (by norm_num)]; congr 1; ring
  have r1 : (2 ^ 52 : ℤ) ≤ roundHalfEven (x / 2 ^ (Int.log 2 x - 52)) := by
    have := roundHalfEven_mono h1
    rwa [roundHalfEven_intCast] at this
  have r2 : roundHalfEven (x / 2 ^ (Int.log 2 x - 52)) ≤ (2 ^ 53 : ℤ) := by
    have := roundHalfEven_mono h2.le
    rwa [roundHalfEven_intCast] at this
  have c1 : ((2 ^ 52 : ℤ) : ℚ) ≤ (roundHalfEven (x / 2 ^ (Int.log 2 x - 52)) : ℚ) :=
    Int.cast_le.2 r1
  have c2 : (roundHalfEven (x / 2 ^ (Int.log 2 x - 52)) : ℚ) ≤ ((2 ^ 53 : ℤ) : ℚ) :=
    Int.cast_le.2 r2
  unfold roundPos
  constructor
  · rw [e1]
    refine mul_le_mul_of_nonneg_right ?_ hu.le
    have e : (2 : ℚ) ^ (52 : ℤ) = ((2 ^ 52 : ℤ) : ℚ) := by norm_num
    rw [e]; exact c1
  · rw [e2]
    refine mul_le_mul_of_nonneg_right ?_ hu.le
    have e : (2 : ℚ) ^ (53 : ℤ) = ((2 ^ 53 : ℤ) : ℚ) := by norm_num
    rw [e]; exact c2

theorem roundPos_mono {x y : ℚ} (hx : 0 < x) (h : x ≤ y) : roundPos x ≤ roundPos y := by
  have hy : 0 < y := lt_of_lt_of_le hx h
  have hl := Int.log_mono_right (b := 2) hx h
  rcases hl.lt_or_eq with hlt | heq
  · calc roundPos x ≤ (2 : ℚ) ^ (Int.log 2 x + 1) := (roundPos_bounds hx).2
      _ ≤ (2 : ℚ) ^ (Int.log 2 y) := zpow_le_zpow_right₀ (by norm_num) (by omega)
      _ ≤ roundPos y := (roundPos_bounds hy).1
  · unfold roundPos
    rw [heq]
    have hu : (0 : ℚ) < 2 ^ (Int.log 2 y - 52) := zpow_pos (by norm_num) _
    refine mul_le_mul_of_nonneg_right ?_ hu.le
    exact Int.cast_le.2 (roundHalfEven_mono (div_le_div_of_nonneg_right h hu.le))

theorem round64_pos {x : ℚ} (hx : 0 < x) : 0 < round64 x := by
  simp only [round64, hx, if_true]
  exact lt_of_lt_of_le (zpow_pos (by norm_num) _) (roundPos_bounds hx).1

theorem round64_zero : round64 0 = 0 := by simp [round64]

theorem round64_mono {x y : ℚ} (hx : 0 ≤ x) (h : x ≤ y) : round64 x ≤ round64 y := by
  rcases hx.lt_or_eq with hpos | hzero
  · have hy : 0 < y := lt_of_lt_of_le hpos h
    simp only [round64, hpos, hy, if_true]
    exact roundPos_mono hpos h
  · rw [← hzero, round64_zero]
    rcases (hzero ▸ h : (0 : ℚ) ≤ y).lt_or_eq with hy | hy
    · exact (round64_pos hy).le
    · rw [← hy, round64_zero]

/-- A rational `n * 2^(e-52)` with a 53-bit integer `n` is a binary64 value. -/
theorem round64_representable (n e : ℤ) (h1 : 2 ^ 52 ≤ n) (h2 : n < 2 ^ 53) :
    round64 ((n : ℚ) * 2 ^ (e - 52)) = (n : ℚ) * 2 ^ (e - 52) := by
  have hu : (0 : ℚ) < 2 ^ (e - 52) := zpow_pos (by norm_num) _
  have hn : (0 : ℚ) < (n : ℚ) := by
    have : (0 : ℤ) < n := by omega
    exact_mod_cast this
  have hx : (0 : ℚ) < (n : ℚ) * 2 ^ (e - 52) := mul_pos hn hu
  have e1 : (2 : ℚ) ^ e = 2 ^ (52 : ℤ) * 2 ^ (e - 52) := by
    rw [← zpow_add₀ (by norm_num)]; congr 1; ring
  have e2 : (2 : ℚ) ^ (e + 1) = 2 ^ (53 : ℤ) * 2 ^ (e - 52) := by
    rw [← zpow_add₀ (by norm_num)]; congr 1; ring
  have hlog : Int.log 2 ((n : ℚ) * 2 ^ (e - 52)) = e := by
    apply log_eq
    · rw [e1]
      refine mul_le_mul_of_nonneg_right ?_ hu.le
      have : ((2 ^ 52 : ℤ) : ℚ) ≤ (n : ℚ) := Int.cast_le.2 h1
      have e : (2 : ℚ) ^ (52 : ℤ) = ((2 ^ 52 : ℤ) : ℚ) := by norm_num
      rw [e]; exact this
    · rw [e2]
      refine mul_lt_mul_of_pos_right ?_ hu
      have : (n : ℚ) < ((2 ^ 53 : ℤ) : ℚ) := Int.cast_lt.2 h2
      have e : (2 : ℚ) ^ (53 : ℤ) = ((2 ^ 53 : ℤ) : ℚ) := by norm_num
      rw [e]; exact this
  simp only [round64, hx, if_true, roundPos, hlog]
  rw [mul_div_assoc, div_self hu.ne', mul_one, roundHalfEven_intCast]

theorem round64_eval {x : ℚ} (e n : ℤ) (h1 : (2 : ℚ) ^ e ≤ x) (h2 : x < (2 : ℚ) ^ (e + 1))
    (hn : roundHalfEven (x / 2 ^ (e - 52)) = n) : round64 x = (n : ℚ) * 2 ^ (e - 52) := by
  have hx : 0 < x := lt_of_lt_of_le (zpow_pos (by norm_num) e) h1
  simp only [round64, hx, if_true, roundPos, log_eq h1 h2, hn]

theorem roundHalfEven_up (q : ℚ) (f : ℤ) (h1 : (f : ℚ) + 1 / 2 < q) (h2 : q < (f : ℚ) + 1) :
    roundHalfEven q = f + 1 := by
  have hf : ⌊q⌋ = f := Int.floor_eq_iff.2 ⟨by linarith, h2⟩
  unfold roundHalfEven
  rw [hf]
  have a : ¬ (q - (f : ℚ) < 1 / 2) := by linarith
  have b : 1 / 2 < q - (f : ℚ) := by linarith
  simp only [a, b, if_false, if_true]

theorem round64_150 : round64 150 = 150 := by
  have h := round64_representable 5277655813324800 7 (by norm_num) (by norm_num)
  have e : ((5277655813324800 : ℤ) : ℚ) * 2 ^ ((7 : ℤ) - 52) = 150 := by
    rw [show ((7 : ℤ) - 52) = -45 by norm_num, zpow_neg]; norm_num
  rwa [e] at h

theorem round64_one : round64 1 = 1 := by
  have h := round64_representable (2 ^ 52) 0 (by norm_num) (by norm_num)
  have e : (((2 : ℤ) ^ 52 : ℤ) : ℚ) * 2 ^ ((0 : ℤ) - 52) = 1 := by
    rw [show ((0 : ℤ) - 52) = -52 by norm_num, zpow_neg]; norm_num
  rwa [e] at h

theorem round64_double02 : round64 double02 = double02 := by
  have h := round64_representable 7205759403792794 (-3) (by norm_num) (by norm_num)
  have e : ((7205759403792794 : ℤ) : ℚ) * 2 ^ ((-3 : ℤ) - 52) = double02 := by
    rw [show ((-3 : ℤ) - 52) = -55 by norm_num, zpow_neg]; norm_num [double02]
  rwa [e] at h

theorem round64_double01 : round64 double01 = double01 := by
  have h := round64_representable 7205759403792794 (-4) (by norm_num) (by norm_num)
  have e : ((7205759403792794 : ℤ) : ℚ) * 2 ^ ((-4 : ℤ) - 52) = double01 := by
    rw [show ((-4 : ℤ) - 52) = -56 by norm_num, zpow_neg]; norm_num [double01]
  rwa [e] at h

theorem round64_fifth : round64 0.2 = double02 := by
  have h := round64_eval (x := 0.2) (-3) 7205759403792794
    (by rw [zpow_neg]; norm_num) (by rw [show ((-3 : ℤ) + 1) = -2 by norm_num, zpow_neg]; norm_num)
    (by
      rw [show ((-3 : ℤ) - 52) = -55 by norm_num, zpow_neg]
      have := roundHalfEven_up (0.2 / (2 ^ (55 : ℤ))⁻¹) 7205759403792793
        (by norm_num) (by norm_num)
      rw [this]; norm_num)
  rw [h, show ((-3 : ℤ) - 52) = -55 by norm_num, zpow_neg]; norm_num [double02]

theorem round64_tenth : round64 0.1 = double01 := by
  have h := round64_eval (x := 0.1) (-4) 7205759403792794
    (by rw [zpow_neg]; norm_num) (by rw [show ((-4 : ℤ) + 1) = -3 by norm_num, zpow_neg]; norm_num)
    (by
      rw [show ((-4 : ℤ) - 52) = -56 by norm_num, zpow_neg]
      have := roundHalfEven_up (0.1 / (2 ^ (56 : ℤ))⁻¹) 7205759403792793
        (by norm_num) (by norm_num)
      rw [this]; norm_num)
  rw [h, show ((-4 : ℤ) - 52) = -56 by norm_num, zpow_neg]; norm_num [double01]

theorem round64_tiny : round64 (1 / 2 ^ 47) = 1 / 2 ^ 47 := by
  have h := round64_representable (2 ^ 52) (-47) (by norm_num) (by norm_num)
  have e : (((2 : ℤ) ^ 52 : ℤ) : ℚ) * 2 ^ ((-47 : ℤ) - 52) = 1 / 2 ^ 47 := by
    rw [show ((-47 : ℤ) - 52) = -99 by norm_num, zpow_neg]; norm_num
  rwa [e] at h

theorem round64_near150 : round64 (150 - 1 / 2 ^ 47) = 150 := by
  have h := round64_eval (x := 150 - 1 / 2 ^ 47) 7 5277655813324800
    (by norm_num) (by norm_num)
    (by
      rw [show ((7 : ℤ) - 52) = -45 by norm_num, zpow_neg]
      have := roundHalfEven_up ((150 - 1 / 2 ^ 47) / (2 ^ (45 : ℤ))⁻¹) 5277655813324799
        (by norm_num) (by norm_num)
      rw [this]; norm_num)
  rw [h, show ((7 : ℤ) - 52) = -45 by norm_num, zpow_neg]; norm_num

theorem lineOpacityMultiplier64_eq (dark : Bool) :
    lineOpacityMultiplier64 dark = if dark then double02 else double01 := by
  cases dark <;> simp [lineOpacityMultiplier64, round64_fifth, round64_tenth]

theorem lineOpacityMultiplier64_pos (dark : Bool) : 0 < lineOpacityMultiplier64 dark := by
  rw [lineOpacityMultiplier64_eq]
  cases dark <;> norm_num [double02, double01]

theorem round64_multiplier (dark : Bool) :
    round64 (lineOpacityMultiplier64 dark) = lineOpacityMultiplier64 dark := by
  rw [lineOpacityMultiplier64_eq]
  cases dark <;> simp [round64_double02, round64_double01]

theorem lineAlpha64_antitone (m d1 d2 : ℚ) (hm : 0 ≤ m) (h : d1 ≤ d2) (h2 : d2 < 150) :
    lineAlpha64 m d2 ≤ lineAlpha64 m d1 := by
  unfold lineAlpha64
  have a1 : round64 (150 - d2) ≤ round64 (150 - d1) :=
    round64_mono (by linarith) (by linarith)
  have a0 : 0 < round64 (150 - d2) := round64_pos (by linarith)
  have b1 : round64 (round64 (150 - d2) / 150) ≤ round64 (round64 (150 - d1) / 150) :=
    round64_mono (div_nonneg a0.le (by norm_num))
      (div_le_div_of_nonneg_right a1 (by norm_num))
  have b0 : 0 < round64 (round64 (150 - d2) / 150) :=
    round64_pos (div_pos a0 (by norm_num))
  exact round64_mono (mul_nonneg b0.le hm) (mul_le_mul_of_nonneg_right b1 hm)

theorem lineAlpha64_zero (dark : Bool) :
    lineAlpha64 (lineOpacityMultiplier64 dark) 0 = lineOpacityMultiplier64 dark := by
  unfold lineAlpha64
  rw [sub_zero, round64_150, div_self (by norm_num), round64_one, one_mul, round64_multiplier]

theorem lineAlpha64_tiny (dark : Bool) :
    lineAlpha64 (lineOpacityMultiplier64 dark) (1 / 2 ^ 47) = lineOpacityMultiplier64 dark := by
  unfold lineAlpha64
  rw [round64_near150, div_self (by norm_num), round64_one, one_mul, round64_multiplier]

/-- C9, refuted as stated: for the binary64 distance `d = 2^-47`, which is
the distance of the particles `tinyLeft` and `tinyRight`, line 120 computes
`150 - d` as `150`, so the line is drawn with opacity exactly `m` (the
binary64 number `0.2` for dark, `0.1` otherwise) although `d` is not `0`, and
the opacity at `d` is not below the opacity at `0`. -/
theorem C9_counterexample :
    round64 (1 / 2 ^ 47) = 1 / 2 ^ 47 ∧ (0 : ℚ) < 1 / 2 ^ 47 ∧
      distance sqrtOnSquares tinyLeft tinyRight = 1 / 2 ^ 47 ∧
      strokeIfNear64 (lineOpacityMultiplier64 true) tinyLeft tinyRight (1 / 2 ^ 47) =
        [Cmd.line (1 / 2 ^ 47) 384 0 384 "#B400FF" (lineOpacityMultiplier64 true)] ∧
      lineAlpha64 (lineOpacityMultiplier64 true) (1 / 2 ^ 47) = lineOpacityMultiplier64 true ∧
      lineAlpha64 (lineOpacityMultiplier64 false) (1 / 2 ^ 47) = lineOpacityMultiplier64 false ∧
      lineAlpha64 (lineOpacityMultiplier64 true) 0 = lineOpacityMultiplier64 true ∧
      lineAlpha64 (lineOpacityMultiplier64 false) 0 = lineOpacityMultiplier64 false := by
  refine ⟨round64_tiny, by norm_num, ?_, ?_, lineAlpha64_tiny true, lineAlpha64_tiny false,
    lineAlpha64_zero true, lineAlpha64_zero false⟩
  · have h := sqrtOnSquares_sq (1 / 2 ^ 47)
    rw [abs_of_nonneg (by norm_num)] at h
    simp only [distance, tinyLeft, tinyRight, restParticle, sub_zero, sub_self, mul_zero,
      add_zero]
    exact h
  · have hlt : (1 / 2 ^ 47 : ℚ) < 150 := by norm_num
    simp only [strokeIfNear64, hlt, if_true, lineAlpha64_tiny, tinyLeft, tinyRight, restParticle]

/-- C9, amended: for a pair of particles with computed distance `d` and the
line multiplier `m` of the theme (the binary64 numbers written `0.2` for dark
and `0.1` otherwise), in binary64 arithmetic: when `d ≥ 150` nothing is
drawn; when `0 ≤ d < 150` one line is drawn, with the opacity
`((150 - d) / 150) * m` of line 120 (each operation rounded to nearest), a
value in `(0, m]`; that opacity is non-increasing in `d` on distances below
150; and it equals `m` when `d = 0`. -/
theorem C9_line_opacity_binary64 (dark : Bool) (p q : Particle) (d : ℚ) :
    (lineOpacityMultiplier64 dark = if dark then double02 else double01) ∧
      (150 ≤ d → strokeIfNear64 (lineOpacityMultiplier64 dark) p q d = []) ∧
      (0 ≤ d → d < 150 →
        strokeIfNear64 (lineOpacityMultiplier64 dark) p q d =
            [Cmd.line p.x p.y q.x q.y p.color (lineAlpha64 (lineOpacityMultiplier64 dark) d)] ∧
          0 < lineAlpha64 (lineOpacityMultiplier64 dark) d ∧
          lineAlpha64 (lineOpacityMultiplier64 dark) d ≤ lineOpacityMultiplier64 dark) ∧
      (∀ d1 d2 : ℚ, d1 ≤ d2 → d2 < 150 →
        lineAlpha64 (lineOpacityMultiplier64 dark) d2 ≤
          lineAlpha64 (lineOpacityMultiplier64 dark) d1) ∧
      lineAlpha64 (lineOpacityMultiplier64 dark) 0 = lineOpacityMultiplier64 dark := by
  have hm := lineOpacityMultiplier64_pos dark
  refine ⟨lineOpacityMultiplier64_eq dark, fun h => ?_, fun h0 h1 => ⟨?_, ?_, ?_⟩,
    fun d1 d2 h h2 => lineAlpha64_antitone _ d1 d2 hm.le h h2, lineAlpha64_zero dark⟩
  · simp [strokeIfNear64, not_lt.2 h]
  · simp [strokeIfNear64, h1]
  · unfold lineAlpha64
    exact round64_pos (mul_pos (round64_pos (div_pos (round64_pos (by linarith))
      (by norm_num))) hm)
  · have := lineAlpha64_antitone _ 0 d hm.le h0 h1
    rwa [lineAlpha64_zero] at this

end ParticleField
